import Mathlib

/-!
Verification of the quota-gated presentation-generation core of the
`hackslab/presentation-bot` repository.

The definitions below are a shallow embedding of the TypeScript sources:

* `src/src/telegram/telegram.service.ts` — the quota reservation ledger
  (`consumeGeneration`, `updateGenerationStatus`,
  `markGenerationAsFailedIfPending`,
  `recoverPendingGenerationsAfterProcessFailure`,
  `getGenerationAvailability`, `buildBlockedQuota`, `getWindowStart`).
* `src/src/telegram/presentation.service.ts` — the conversation flow state
  machine (`setTemplate`, `completeBriefAnswers`, `backToTopic`,
  `hasAllBriefAnswers`), the content-generation cascade (`generateSlides`,
  `parseAiSlides`, `normalizeSlides`, `buildFallbackSlides`,
  `shouldTryNextGeminiApiKey`) and the image cascade
  (`attachImagesToSlides`, `isSerperPermissionError`).

Database tables are modelled as in-memory lists, timestamps as `Int`
milliseconds, and the asynchronous provider calls as explicit outcome
parameters (the network response each attempt would observe).  Database
transactions are modelled by the atomic functional update an operation
performs (the row lock of `consumeGeneration` serialises reservation
attempts, which is exactly the sequential-trace semantics used here).
-/

set_option linter.unusedVariables false

namespace PresentationBot

/-! ### Ledger data model (telegram.service.ts, schema.ts) -/

/-- Status column of the `presentations` table: `pending`, `completed`, `failed`. -/
inductive GenStatus
  | pending
  | completed
  | failed
deriving DecidableEq, Repr

/-- `PresentationMetadata` from telegram.service.ts (all fields optional). -/
structure PresentationMetadata where
  prompt : Option String
  language : Option String
  templateId : Option Nat
  pageCount : Option Nat
  fileName : Option String
deriving DecidableEq, Repr

def emptyMetadata : PresentationMetadata := ⟨none, none, none, none, none⟩

/-- A row of the `presentations` table (one generation reservation). -/
structure GenRecord where
  id : Nat
  userId : Nat
  createdAt : Int
  status : GenStatus
  metadata : PresentationMetadata
deriving DecidableEq, Repr

/-- A row of the `telegram_users` table. -/
structure TelegramUser where
  id : Nat
  telegramId : String
  username : Option String
  firstName : String
  phoneNumber : Option String
deriving DecidableEq, Repr

/-- The persistent state the ledger operates on: both tables plus the
serial id counter of `presentations`. -/
structure LedgerState where
  users : List TelegramUser
  records : List GenRecord
  nextId : Nat
deriving DecidableEq, Repr

/-- `TelegramService.DAILY_GENERATION_LIMIT = 3`. -/
def DAILY_GENERATION_LIMIT : Nat := 3

/-- `TelegramService.RATE_LIMIT_WINDOW_MS = 24 * 60 * 60 * 1000`. -/
def RATE_LIMIT_WINDOW_MS : Int := 24 * 60 * 60 * 1000

/-- `getWindowStart(referenceDate)` = referenceDate − window length. -/
def getWindowStart (referenceDate : Int) : Int :=
  referenceDate - RATE_LIMIT_WINDOW_MS

/-- Result shape of `getGenerationAvailability`. -/
structure GenerationQuota where
  allowed : Bool
  usedToday : Nat
  remainingToday : Nat
  dailyLimit : Nat
  nextAvailableAt : Option Int
deriving DecidableEq, Repr

/-- Result shape of `consumeGeneration` (quota plus reservation id). -/
structure GenerationReservation extends GenerationQuota where
  reservationId : Option Nat
deriving DecidableEq, Repr

/-- The drizzle `where` clause used by both `consumeGeneration` and
`getGenerationAvailability`: same user, `createdAt >= windowStart`,
`status != failed`. -/
def countedInWindow (userId : Nat) (windowStart : Int) (r : GenRecord) : Bool :=
  r.userId == userId && decide (windowStart ≤ r.createdAt) &&
    r.status != GenStatus.failed

/-- Rows matched by the usage query. -/
def usageRows (s : LedgerState) (userId : Nat) (windowStart : Int) : List GenRecord :=
  s.records.filter (countedInWindow userId windowStart)

/-- `count(presentations.id)` over the usage query. -/
def usedCountOf (s : LedgerState) (userId : Nat) (windowStart : Int) : Nat :=
  (usageRows s userId windowStart).length

/-- Minimum of a list of timestamps (`min(createdAt)` aggregate; `none`
for an empty row set, mirroring SQL `NULL`). -/
def listMinInt : List Int → Option Int
  | [] => none
  | x :: xs =>
    match listMinInt xs with
    | none => some x
    | some m => some (min x m)

/-- `min(presentations.createdAt)` over the usage query. -/
def oldestCreatedAtOf (s : LedgerState) (userId : Nat) (windowStart : Int) : Option Int :=
  listMinInt ((usageRows s userId windowStart).map (·.createdAt))

/-- `findFirst` on `telegram_users` by `telegramId` (also the row the
`select ... for update` of `consumeGeneration` locks). -/
def getUserByTelegramId (s : LedgerState) (telegramId : String) : Option TelegramUser :=
  s.users.find? (fun u => u.telegramId == telegramId)

/-- JS falsiness of an optional string (`!user.phoneNumber`): `undefined`/
`null` or the empty string. -/
def jsFalsyString : Option String → Bool
  | none => true
  | some v => v == ""

/-- `TelegramService.buildBlockedQuota`. -/
def buildBlockedQuota (usedCount : Nat) (oldestCreatedAt : Option Int)
    (referenceDate : Int) : GenerationQuota :=
  let nextAvailableAt :=
    match oldestCreatedAt with
    | some t => t + RATE_LIMIT_WINDOW_MS
    | none => referenceDate + RATE_LIMIT_WINDOW_MS
  { allowed := false
    usedToday := usedCount
    remainingToday := 0
    dailyLimit := DAILY_GENERATION_LIMIT
    nextAvailableAt := some nextAvailableAt }

/-- `TelegramService.consumeGeneration` (the `Reserve` operation).  The whole
body runs in one transaction holding a `for update` row lock on the user, so
it is modelled as one atomic step from state to state; an exception aborts
the transaction, hence the `Except` result carries no state.  `now` is the
`new Date()` taken at entry.  Nat subtraction models
`Math.max(limit - used, 0)`. -/
def consumeGeneration (s : LedgerState) (telegramId : String)
    (metadata : PresentationMetadata) (now : Int) :
    Except String (GenerationReservation × LedgerState) :=
  let windowStart := getWindowStart now
  match getUserByTelegramId s telegramId with
  | none => .error "Foydalanuvchi ro\x27yxatdan o\x27tmagan."
  | some lockedUser =>
    if jsFalsyString lockedUser.phoneNumber then
      .error "Foydalanuvchi ro\x27yxatdan o\x27tishi yakunlanmagan."
    else
      let usedCount := usedCountOf s lockedUser.id windowStart
      let oldestCreatedAt := oldestCreatedAtOf s lockedUser.id windowStart
      if DAILY_GENERATION_LIMIT ≤ usedCount then
        .ok (⟨buildBlockedQuota usedCount oldestCreatedAt now, none⟩, s)
      else
        let record : GenRecord :=
          ⟨s.nextId, lockedUser.id, now, GenStatus.pending, metadata⟩
        let usedToday := usedCount + 1
        .ok (⟨⟨true, usedToday, DAILY_GENERATION_LIMIT - usedToday,
                DAILY_GENERATION_LIMIT, none⟩, some s.nextId⟩,
             { s with records := s.records ++ [record], nextId := s.nextId + 1 })

/-- The status argument of `updateGenerationStatus`: `"completed" | "failed"`. -/
inductive TerminalStatus
  | completed
  | failed
deriving DecidableEq, Repr

def TerminalStatus.toGenStatus : TerminalStatus → GenStatus
  | .completed => .completed
  | .failed => .failed

/-- `TelegramService.updateGenerationStatus` (the `Finalize` operation):
unconditional update of the status of the record with the given id. -/
def updateGenerationStatus (s : LedgerState) (presentationId : Nat)
    (status : TerminalStatus) : LedgerState :=
  { s with
    records := s.records.map (fun r =>
      if r.id == presentationId then { r with status := status.toGenStatus } else r) }

/-- `TelegramService.markGenerationAsFailedIfPending`: set `failed` only
where the id matches and the status is still `pending`. -/
def markGenerationAsFailedIfPending (s : LedgerState) (presentationId : Nat) :
    LedgerState :=
  { s with
    records := s.records.map (fun r =>
      if r.id == presentationId && r.status == GenStatus.pending then
        { r with status := GenStatus.failed }
      else r) }

/-- `TelegramService.recoverPendingGenerationsAfterProcessFailure`: set every
`pending` record to `failed`, returning how many rows were updated. -/
def recoverPendingGenerationsAfterProcessFailure (s : LedgerState) :
    Nat × LedgerState :=
  ((s.records.filter (fun r => r.status == GenStatus.pending)).length,
   { s with
     records := s.records.map (fun r =>
       if r.status == GenStatus.pending then { r with status := GenStatus.failed }
       else r) })

/-- `TelegramService.getGenerationAvailability` (the `CheckAvailability`
operation, read-only). -/
def getGenerationAvailability (s : LedgerState) (telegramId : String)
    (now : Int) : Except String GenerationQuota :=
  match getUserByTelegramId s telegramId with
  | none => .error "Foydalanuvchi ro\x27yxatdan o\x27tmagan."
  | some user =>
    if jsFalsyString user.phoneNumber then
      .error "Foydalanuvchi ro\x27yxatdan o\x27tishi yakunlanmagan."
    else
      let windowStart := getWindowStart now
      let usedToday := usedCountOf s user.id windowStart
      let oldestCreatedAt := oldestCreatedAtOf s user.id windowStart
      if DAILY_GENERATION_LIMIT ≤ usedToday then
        .ok (buildBlockedQuota usedToday oldestCreatedAt now)
      else
        .ok ⟨true, usedToday, DAILY_GENERATION_LIMIT - usedToday,
             DAILY_GENERATION_LIMIT, none⟩

/-! ### Ledger operation traces -/

/-- The ledger operations exposed by the component, as invoked by callers. -/
inductive LedgerOp
  | reserve (telegramId : String) (metadata : PresentationMetadata)
  | finalize (presentationId : Nat) (status : TerminalStatus)
  | markFailedIfPending (presentationId : Nat)
  | recover
deriving DecidableEq, Repr

/-- Effect of one ledger operation on the persistent state at time `now`.
A rejected or failed `reserve` leaves the state unchanged (the transaction
aborts before, or without, inserting anything). -/
def applyOp (s : LedgerState) (op : LedgerOp) (now : Int) : LedgerState :=
  match op with
  | .reserve telegramId metadata =>
    match consumeGeneration s telegramId metadata now with
    | .ok (_, s2) => s2
    | .error _ => s
  | .finalize presentationId status => updateGenerationStatus s presentationId status
  | .markFailedIfPending presentationId => markGenerationAsFailedIfPending s presentationId
  | .recover => (recoverPendingGenerationsAfterProcessFailure s).2

/-- Run a timestamped sequence of ledger operations. -/
def execTrace (s : LedgerState) : List (Int × LedgerOp) → LedgerState
  | [] => s
  | (t, op) :: rest => execTrace (applyOp s op t) rest

/-- A step never resurrects a failed record: `finalize(_, completed)` is
not applied to a record whose current status is `failed`.  (The code
performs an unconditional update, so this is a restriction on callers,
not something `updateGenerationStatus` enforces.) -/
def noResurrection (s : LedgerState) (op : LedgerOp) : Bool :=
  match op with
  | .finalize presentationId .completed =>
    s.records.all (fun r => r.id != presentationId || r.status != GenStatus.failed)
  | _ => true

/-- `noResurrection` holds at every step of the trace. -/
def traceOk : LedgerState → List (Int × LedgerOp) → Bool
  | _, [] => true
  | s, (t, op) :: rest => noResurrection s op && traceOk (applyOp s op t) rest

/-- Membership test of a record in a rolling window `[a, a + W]` for a
given user, ignoring `failed` records. -/
def inRollingWindow (userId : Nat) (a : Int) (r : GenRecord) : Bool :=
  r.userId == userId && r.status != GenStatus.failed &&
    decide (a ≤ r.createdAt) && decide (r.createdAt ≤ a + RATE_LIMIT_WINDOW_MS)

/-- Number of non-failed records of `userId` created inside the rolling
window `[a, a + RATE_LIMIT_WINDOW_MS]`. -/
def windowedNonFailedCount (records : List GenRecord) (userId : Nat) (a : Int) : Nat :=
  (records.filter (inRollingWindow userId a)).length

/-- The quota window invariant of the spec: for every user, at most
`DAILY_GENERATION_LIMIT` non-failed records in any rolling window. -/
def QuotaWindowInvariant (s : LedgerState) : Prop :=
  ∀ userId a, windowedNonFailedCount s.records userId a ≤ DAILY_GENERATION_LIMIT

/-! ### Helper lemmas about filters -/

theorem filter_length_mono {α : Type} {p q : α → Bool} {l : List α}
    (h : ∀ a ∈ l, p a = true → q a = true) :
    (l.filter p).length ≤ (l.filter q).length := by
  induction l with
  | nil => simp
  | cons x xs ih =>
    have ih2 := ih (fun a ha hp => h a (List.mem_cons_of_mem _ ha) hp)
    by_cases hp : p x = true
    · have hq := h x (List.mem_cons_self _ _) hp
      simp only [List.filter_cons, hp, hq, if_true, List.length_cons]
      omega
    · rw [Bool.not_eq_true] at hp
      by_cases hq : q x = true
      · simp only [List.filter_cons, hp, hq, if_true, List.length_cons,
          Bool.false_eq_true, if_false]
        omega
      · rw [Bool.not_eq_true] at hq
        simp only [List.filter_cons, hp, hq, Bool.false_eq_true, if_false]
        omega

theorem filter_length_map_le {α : Type} {f : α → α} {p : α → Bool} {l : List α}
    (h : ∀ a ∈ l, p (f a) = true → p a = true) :
    ((l.map f).filter p).length ≤ (l.filter p).length := by
  induction l with
  | nil => simp
  | cons x xs ih =>
    have ih2 := ih (fun a ha hp => h a (List.mem_cons_of_mem _ ha) hp)
    by_cases hfx : p (f x) = true
    · have hx := h x (List.mem_cons_self _ _) hfx
      simp only [List.map_cons, List.filter_cons, hfx, hx, if_true, List.length_cons]
      omega
    · rw [Bool.not_eq_true] at hfx
      by_cases hx : p x = true
      · simp only [List.map_cons, List.filter_cons, hfx, hx, if_true,
          Bool.false_eq_true, if_false, List.length_cons]
        omega
      · rw [Bool.not_eq_true] at hx
        simp only [List.map_cons, List.filter_cons, hfx, hx, Bool.false_eq_true, if_false]
        omega

/-! ### Preservation of the quota window invariant -/

theorem insert_preserves_invariant (s : LedgerState) (uid : Nat) (t : Int)
    (m : PresentationMetadata)
    (hcnt : usedCountOf s uid (getWindowStart t) < DAILY_GENERATION_LIMIT)
    (hinv : QuotaWindowInvariant s) :
    QuotaWindowInvariant
      { s with records := s.records ++ [⟨s.nextId, uid, t, GenStatus.pending, m⟩],
               nextId := s.nextId + 1 } := by
  intro userId a
  unfold windowedNonFailedCount
  rw [List.filter_append, List.length_append]
  by_cases hw : inRollingWindow userId a ⟨s.nextId, uid, t, GenStatus.pending, m⟩ = true
  · have h1 :
        (List.filter (inRollingWindow userId a)
          [(⟨s.nextId, uid, t, GenStatus.pending, m⟩ : GenRecord)]).length = 1 := by
      simp [hw]
    rw [h1]
    unfold inRollingWindow at hw
    simp only [Bool.and_eq_true, beq_iff_eq, bne_iff_ne, decide_eq_true_eq] at hw
    obtain ⟨⟨⟨huid, _⟩, hat⟩, hta⟩ := hw
    have hsub :
        (s.records.filter (inRollingWindow userId a)).length ≤
          usedCountOf s uid (getWindowStart t) := by
      unfold usedCountOf usageRows
      apply filter_length_mono
      intro r hr hpr
      unfold inRollingWindow at hpr
      unfold countedInWindow getWindowStart
      simp only [Bool.and_eq_true, beq_iff_eq, bne_iff_ne, decide_eq_true_eq] at hpr ⊢
      obtain ⟨⟨⟨h1, h2⟩, h3⟩, h4⟩ := hpr
      refine ⟨⟨by rw [h1, ← huid], ?_⟩, h2⟩
      unfold RATE_LIMIT_WINDOW_MS at hta ⊢
      omega
    have := hinv userId a
    unfold DAILY_GENERATION_LIMIT at hcnt ⊢
    omega
  · rw [Bool.not_eq_true] at hw
    have h0 :
        (List.filter (inRollingWindow userId a)
          [(⟨s.nextId, uid, t, GenStatus.pending, m⟩ : GenRecord)]).length = 0 := by
      simp [hw]
    rw [h0]
    simpa using hinv userId a

/-- Status-only updates that never turn a `failed` record into a non-failed
one cannot increase any windowed count. -/
theorem statusMap_preserves_invariant (s : LedgerState) (f : GenRecord → GenRecord)
    (hsame : ∀ r, (f r).userId = r.userId ∧ (f r).createdAt = r.createdAt)
    (hstat : ∀ r ∈ s.records,
      (f r).status ≠ GenStatus.failed → r.status ≠ GenStatus.failed)
    (hinv : QuotaWindowInvariant s) :
    QuotaWindowInvariant { s with records := s.records.map f } := by
  intro userId a
  unfold windowedNonFailedCount
  refine le_trans (filter_length_map_le ?_) (hinv userId a)
  intro r hr hpr
  unfold inRollingWindow at hpr ⊢
  simp only [Bool.and_eq_true, beq_iff_eq, bne_iff_ne, decide_eq_true_eq] at hpr ⊢
  obtain ⟨⟨⟨h1, h2⟩, h3⟩, h4⟩ := hpr
  obtain ⟨hu, hc⟩ := hsame r
  rw [hu] at h1
  rw [hc] at h3 h4
  exact ⟨⟨⟨h1, hstat r hr h2⟩, h3⟩, h4⟩

theorem applyOp_preserves_invariant (s : LedgerState) (op : LedgerOp) (t : Int)
    (hres : noResurrection s op = true) (hinv : QuotaWindowInvariant s) :
    QuotaWindowInvariant (applyOp s op t) := by
  cases op with
  | reserve tid m =>
    have hstep : applyOp s (.reserve tid m) t = s ∨
        ∃ u, getUserByTelegramId s tid = some u ∧
          usedCountOf s u.id (getWindowStart t) < DAILY_GENERATION_LIMIT ∧
          applyOp s (.reserve tid m) t =
            { s with
              records := s.records ++ [⟨s.nextId, u.id, t, GenStatus.pending, m⟩],
              nextId := s.nextId + 1 } := by
      unfold applyOp consumeGeneration
      cases hu : getUserByTelegramId s tid with
      | none => left; simp [hu]
      | some u =>
        by_cases hp : jsFalsyString u.phoneNumber = true
        · left; simp [hu, hp]
        · rw [Bool.not_eq_true] at hp
          by_cases hc : DAILY_GENERATION_LIMIT ≤ usedCountOf s u.id (getWindowStart t)
          · left; simp [hu, hp, hc]
          · right
            exact ⟨u, rfl, by omega, by simp [hu, hp, hc]⟩
    rcases hstep with h | ⟨u, _, hcnt, h⟩
    · rw [h]; exact hinv
    · rw [h]; exact insert_preserves_invariant s u.id t m hcnt hinv
  | finalize pid st =>
    refine statusMap_preserves_invariant s _ (fun r => ?_) (fun r hr hne => ?_) hinv
    · by_cases hid : r.id == pid <;> simp [hid]
    · by_cases hid : r.id == pid
      · cases st with
        | completed =>
          unfold noResurrection at hres
          rw [List.all_eq_true] at hres
          have := hres r hr
          simp only [Bool.or_eq_true, bne_iff_ne, ne_eq] at this
          rcases this with h | h
          · exact absurd (by simpa using hid) h
          · exact h
        | failed =>
          simp only [hid, if_true, TerminalStatus.toGenStatus] at hne
          exact absurd rfl hne
      · simp only [hid, Bool.false_eq_true, if_false] at hne
        exact hne
  | markFailedIfPending pid =>
    refine statusMap_preserves_invariant s _ (fun r => ?_) (fun r hr hne => ?_) hinv
    · by_cases hg : r.id == pid && r.status == GenStatus.pending <;> simp [hg]
    · by_cases hg : (r.id == pid && r.status == GenStatus.pending) = true
      · simp only [hg, if_true] at hne
        exact absurd rfl hne
      · rw [Bool.not_eq_true] at hg
        simp only [hg, Bool.false_eq_true, if_false] at hne
        exact hne
  | recover =>
    refine statusMap_preserves_invariant s _ (fun r => ?_) (fun r hr hne => ?_) hinv
    · by_cases hg : r.status == GenStatus.pending <;> simp [hg]
    · by_cases hg : (r.status == GenStatus.pending) = true
      · simp only [hg, if_true] at hne
        exact absurd rfl hne
      · rw [Bool.not_eq_true] at hg
        simp only [hg, Bool.false_eq_true, if_false] at hne
        exact hne

theorem execTrace_preserves_invariant (tr : List (Int × LedgerOp)) :
    ∀ s : LedgerState, QuotaWindowInvariant s → traceOk s tr = true →
      QuotaWindowInvariant (execTrace s tr) := by
  induction tr with
  | nil => intro s hinv _; exact hinv
  | cons step rest ih =>
    intro s hinv hok
    obtain ⟨t, op⟩ := step
    unfold traceOk at hok
    rw [Bool.and_eq_true] at hok
    exact ih _ (applyOp_preserves_invariant s op t hok.1 hinv) hok.2

/-! ### Characterisations of `consumeGeneration` -/

theorem consumeGeneration_ok_granted (s : LedgerState) (tid : String)
    (m : PresentationMetadata) (now : Int) (res : GenerationReservation)
    (s2 : LedgerState)
    (hok : consumeGeneration s tid m now = .ok (res, s2))
    (hgranted : res.reservationId.isSome = true) :
    ∃ u, getUserByTelegramId s tid = some u ∧
      jsFalsyString u.phoneNumber = false ∧
      usedCountOf s u.id (getWindowStart now) < DAILY_GENERATION_LIMIT ∧
      res.reservationId = some s.nextId ∧
      s2 = { s with
             records := s.records ++ [⟨s.nextId, u.id, now, GenStatus.pending, m⟩],
             nextId := s.nextId + 1 } := by
  unfold consumeGeneration at hok
  cases hu : getUserByTelegramId s tid with
  | none => simp [hu] at hok
  | some u =>
    by_cases hp : jsFalsyString u.phoneNumber = true
    · simp [hu, hp] at hok
    · rw [Bool.not_eq_true] at hp
      by_cases hc : DAILY_GENERATION_LIMIT ≤ usedCountOf s u.id (getWindowStart now)
      · simp only [hu, hp, Bool.false_eq_true, if_false, if_pos hc] at hok
        rw [Except.ok.injEq, Prod.mk.injEq] at hok
        obtain ⟨h1, _⟩ := hok
        rw [← h1] at hgranted
        simp at hgranted
      · simp only [hu, hp, Bool.false_eq_true, if_false, if_neg hc] at hok
        rw [Except.ok.injEq, Prod.mk.injEq] at hok
        obtain ⟨h1, h2⟩ := hok
        exact ⟨u, rfl, hp, by omega, by rw [← h1], h2.symm⟩

/-! ### C1 -/

/-- C1 (amended): for every serialized interleaving of ledger operations in
which `Finalize(_, completed)` is never applied to a record whose current
status is `failed` (`traceOk`), the quota window invariant is preserved:
at most `DAILY_GENERATION_LIMIT = 3` non-failed records per user inside any
rolling 24h window.  Moreover `Reserve` (consumeGeneration) called when the
windowed non-failed count is already ≥ 3 returns `allowed = false` with
`reservationId = null` and leaves the record table unchanged. -/
theorem c1_quota_window_invariant :
    (∀ (s : LedgerState) (tr : List (Int × LedgerOp)),
        QuotaWindowInvariant s → traceOk s tr = true →
        QuotaWindowInvariant (execTrace s tr)) ∧
    (∀ (s : LedgerState) (tid : String) (m : PresentationMetadata) (now : Int)
        (u : TelegramUser) (res : GenerationReservation) (s2 : LedgerState),
        getUserByTelegramId s tid = some u →
        DAILY_GENERATION_LIMIT ≤ usedCountOf s u.id (getWindowStart now) →
        consumeGeneration s tid m now = .ok (res, s2) →
        res.allowed = false ∧ res.reservationId = none ∧ s2 = s) := by
  constructor
  · intro s tr hinv hok
    exact execTrace_preserves_invariant tr s hinv hok
  · intro s tid m now u res s2 hu hcnt hok
    unfold consumeGeneration at hok
    by_cases hp : jsFalsyString u.phoneNumber = true
    · simp [hu, hp] at hok
    · rw [Bool.not_eq_true] at hp
      simp only [hu, hp, Bool.false_eq_true, if_false, if_pos hcnt] at hok
      rw [Except.ok.injEq, Prod.mk.injEq] at hok
      obtain ⟨h1, h2⟩ := hok
      refine ⟨?_, ?_, h2.symm⟩
      · rw [← h1]; rfl
      · rw [← h1]

def c1User : TelegramUser := ⟨1, "100", none, "U", some "+998900000000"⟩

def c1EmptyState : LedgerState := ⟨[c1User], [], 0⟩

def c1OkTrace : List (Int × LedgerOp) :=
  [(0, .reserve "100" emptyMetadata),
   (0, .reserve "100" emptyMetadata),
   (5, .finalize 0 .completed),
   (10, .markFailedIfPending 1),
   (20, .recover)]

def c1BlockedState : LedgerState :=
  ⟨[c1User],
   [⟨0, 1, 0, GenStatus.pending, emptyMetadata⟩,
    ⟨1, 1, 0, GenStatus.completed, emptyMetadata⟩,
    ⟨2, 1, 0, GenStatus.pending, emptyMetadata⟩],
   3⟩

theorem c1_quota_window_invariant_witness :
    QuotaWindowInvariant (execTrace c1EmptyState c1OkTrace) ∧
    ((⟨buildBlockedQuota 3 (some 0) 0, none⟩ : GenerationReservation).allowed = false ∧
     (⟨buildBlockedQuota 3 (some 0) 0, none⟩ : GenerationReservation).reservationId = none ∧
     c1BlockedState = c1BlockedState) := by
  constructor
  · exact c1_quota_window_invariant.1 c1EmptyState c1OkTrace
      (by
        intro userId a
        simp [c1EmptyState, windowedNonFailedCount, DAILY_GENERATION_LIMIT])
      (by decide)
  · exact c1_quota_window_invariant.2 c1BlockedState "100" emptyMetadata 0 c1User
      ⟨buildBlockedQuota 3 (some 0) 0, none⟩ c1BlockedState
      (by decide) (by decide) rfl

def c1CexTrace : List (Int × LedgerOp) :=
  [(0, .reserve "100" emptyMetadata),
   (0, .finalize 0 .failed),
   (0, .reserve "100" emptyMetadata),
   (0, .reserve "100" emptyMetadata),
   (0, .reserve "100" emptyMetadata),
   (0, .finalize 0 .completed)]

/-- C1 counterexample to the claim as stated (over *every* interleaving of
the four ledger operations): `Finalize` is an unconditional update, so
finalizing a record that crash recovery or an error path already marked
`failed` back to `completed` resurrects it, after which 4 non-failed records
of one user sit inside a single rolling 24h window. -/
theorem c1_counterexample :
    DAILY_GENERATION_LIMIT <
      windowedNonFailedCount (execTrace c1EmptyState c1CexTrace).records 1 0 := by
  decide

/-! ### C2 -/

theorem usageRows_eq_of_records (s1 s2 : LedgerState) (h : s1.records = s2.records)
    (uid : Nat) (ws : Int) : usageRows s1 uid ws = usageRows s2 uid ws := by
  unfold usageRows
  rw [h]

theorem usageRows_append_failed (s : LedgerState) (r : GenRecord) (uid : Nat)
    (ws : Int) (hr : r.status = GenStatus.failed) :
    usageRows { s with records := s.records ++ [r] } uid ws = usageRows s uid ws := by
  unfold usageRows
  simp [List.filter_append, countedInWindow, hr]

theorem getGenerationAvailability_congr (s1 s2 : LedgerState) (tid : String)
    (now : Int) (hu : s1.users = s2.users)
    (hr : ∀ uid ws, usageRows s1 uid ws = usageRows s2 uid ws) :
    getGenerationAvailability s1 tid now = getGenerationAvailability s2 tid now := by
  unfold getGenerationAvailability getUserByTelegramId usedCountOf oldestCreatedAtOf
  rw [hu]
  cases s2.users.find? (fun u => u.telegramId == tid) with
  | none => rfl
  | some u =>
    by_cases hp : jsFalsyString u.phoneNumber = true
    · simp [hp]
    · rw [Bool.not_eq_true] at hp
      simp only [hp, Bool.false_eq_true, if_false, hr]

theorem map_update_id (records : List GenRecord) (pid : Nat) (st : TerminalStatus)
    (h : ∀ r ∈ records, r.id ≠ pid) :
    records.map (fun r =>
      if r.id == pid then { r with status := st.toGenStatus } else r) = records := by
  induction records with
  | nil => rfl
  | cons x xs ih =>
    have hx : (x.id == pid) = false := by
      simp [h x (List.mem_cons_self _ _)]
    simp only [List.map_cons, hx, Bool.false_eq_true, if_false]
    rw [ih (fun r hr => h r (List.mem_cons_of_mem _ hr))]

/-- C2: a `failed` record never consumes quota.  First part: `Reserve`
granted, then immediately `Finalize(reservationId, failed)`, leaves a
subsequent `CheckAvailability` (whole result, in particular `usedInWindow`)
identical to what it was before the `Reserve` (assuming the serial-id
discipline of the `presentations` table: all existing ids are below
`nextId`).  Second part: adding a record with `status = failed` never
changes the windowed count used by `CheckAvailability`/`Reserve`. -/
theorem c2_failed_records_do_not_consume_quota :
    (∀ (s : LedgerState) (tid : String) (m : PresentationMetadata) (now : Int)
        (res : GenerationReservation) (s2 : LedgerState) (rid : Nat),
        (∀ r ∈ s.records, r.id < s.nextId) →
        consumeGeneration s tid m now = .ok (res, s2) →
        res.reservationId = some rid →
        getGenerationAvailability (updateGenerationStatus s2 rid .failed) tid now =
          getGenerationAvailability s tid now) ∧
    (∀ (s : LedgerState) (r : GenRecord) (uid : Nat) (ws : Int),
        r.status = GenStatus.failed →
        usedCountOf { s with records := r :: s.records } uid ws =
          usedCountOf s uid ws) := by
  constructor
  · intro s tid m now res s2 rid hids hok hrid
    obtain ⟨u, hu, hp, hcnt, hres, hs2⟩ :=
      consumeGeneration_ok_granted s tid m now res s2 hok (by rw [hrid]; rfl)
    have hridval : rid = s.nextId := Option.some.inj (hrid.symm.trans hres)
    have hupd : (updateGenerationStatus s2 rid .failed).records =
        s.records ++ [⟨s.nextId, u.id, now, GenStatus.failed, m⟩] := by
      rw [hridval, hs2]
      unfold updateGenerationStatus
      simp only [List.map_append]
      rw [map_update_id s.records s.nextId .failed
        (fun r hr => Nat.ne_of_lt (hids r hr))]
      simp [TerminalStatus.toGenStatus]
    have husers : (updateGenerationStatus s2 rid .failed).users = s.users := by
      rw [hridval, hs2]; rfl
    refine getGenerationAvailability_congr _ _ tid now husers ?_
    intro uid ws
    rw [usageRows_eq_of_records (updateGenerationStatus s2 rid .failed)
      { s with records := s.records ++ [⟨s.nextId, u.id, now, GenStatus.failed, m⟩] } hupd]
    exact usageRows_append_failed s _ uid ws rfl
  · intro s r uid ws hr
    unfold usedCountOf usageRows
    simp [List.filter_cons, countedInWindow, hr]

def c2User : TelegramUser := ⟨1, "200", none, "V", some "+998911111111"⟩

def c2State : LedgerState := ⟨[c2User], [], 0⟩

def c2AfterState : LedgerState :=
  ⟨[c2User], [⟨0, 1, 0, GenStatus.pending, emptyMetadata⟩], 1⟩

def c2FailedRecord : GenRecord := ⟨9, 1, 0, GenStatus.failed, emptyMetadata⟩

theorem c2_failed_records_do_not_consume_quota_witness :
    (getGenerationAvailability (updateGenerationStatus c2AfterState 0 .failed) "200" 0 =
      getGenerationAvailability c2State "200" 0) ∧
    usedCountOf { c2State with records := c2FailedRecord :: c2State.records } 5 0 =
      usedCountOf c2State 5 0 := by
  constructor
  · exact c2_failed_records_do_not_consume_quota.1 c2State "200" emptyMetadata 0
      ⟨⟨true, 1, 2, 3, none⟩, some 0⟩ c2AfterState 0
      (by intro r hr; simp [c2State] at hr) rfl rfl
  · exact c2_failed_records_do_not_consume_quota.2 c2State c2FailedRecord 5 0 rfl

/-! ### C3 -/

theorem flipPending_no_pending (l : List GenRecord) :
    (List.filter (fun r => r.status == GenStatus.pending)
      (l.map (fun r =>
        if r.status == GenStatus.pending then { r with status := GenStatus.failed }
        else r))).length = 0 := by
  induction l with
  | nil => rfl
  | cons x xs ih =>
    by_cases hx : (x.status == GenStatus.pending) = true
    · simp only [List.map_cons, hx, if_true, List.filter_cons]
      simpa using ih
    · rw [Bool.not_eq_true] at hx
      simp only [List.map_cons, hx, Bool.false_eq_true, if_false, List.filter_cons, hx]
      simpa using ih

/-- C3: `RecoverOrphanedOnStartup`
(recoverPendingGenerationsAfterProcessFailure) returns the number of
currently-pending records, rewrites exactly the pending records to `failed`
(position by position), leaves every record whose status is not `pending`
untouched, and a second immediately following call returns 0. -/
theorem c3_recover_orphaned_idempotent :
    ∀ s : LedgerState,
      (recoverPendingGenerationsAfterProcessFailure s).1 =
        (s.records.filter (fun r => r.status == GenStatus.pending)).length ∧
      (∀ i : Nat,
        (recoverPendingGenerationsAfterProcessFailure s).2.records[i]? =
          (s.records[i]?).map (fun r =>
            if r.status == GenStatus.pending then { r with status := GenStatus.failed }
            else r)) ∧
      (∀ (i : Nat) (r : GenRecord), s.records[i]? = some r →
        r.status ≠ GenStatus.pending →
        (recoverPendingGenerationsAfterProcessFailure s).2.records[i]? = some r) ∧
      (recoverPendingGenerationsAfterProcessFailure
        (recoverPendingGenerationsAfterProcessFailure s).2).1 = 0 := by
  intro s
  refine ⟨rfl, ?_, ?_, ?_⟩
  · intro i
    unfold recoverPendingGenerationsAfterProcessFailure
    simp [List.getElem?_map]
  · intro i r hi hstat
    unfold recoverPendingGenerationsAfterProcessFailure
    have hx : (r.status == GenStatus.pending) = false := by simp [hstat]
    simp [List.getElem?_map, hi, hx]
    exact fun hcontra => absurd hcontra hstat
  · exact flipPending_no_pending s.records

def c3State : LedgerState :=
  ⟨[], [⟨0, 1, 0, GenStatus.pending, emptyMetadata⟩,
        ⟨1, 1, 0, GenStatus.completed, emptyMetadata⟩], 2⟩

theorem c3_recover_orphaned_idempotent_witness :
    (recoverPendingGenerationsAfterProcessFailure c3State).1 =
      (c3State.records.filter (fun r => r.status == GenStatus.pending)).length ∧
    (recoverPendingGenerationsAfterProcessFailure c3State).2.records[1]? =
      some ⟨1, 1, 0, GenStatus.completed, emptyMetadata⟩ ∧
    (recoverPendingGenerationsAfterProcessFailure
      (recoverPendingGenerationsAfterProcessFailure c3State).2).1 = 0 := by
  have h := c3_recover_orphaned_idempotent c3State
  exact ⟨h.1, h.2.2.1 1 ⟨1, 1, 0, GenStatus.completed, emptyMetadata⟩ rfl (by decide),
    h.2.2.2⟩

/-! ### C10 -/

/-- C10: both `Reserve` (consumeGeneration) and `CheckAvailability`
(getGenerationAvailability) throw — rather than returning a blocked quota —
when the user row is missing or its `phoneNumber` is null/empty, and in that
case the aborted reservation transaction leaves the state unchanged, i.e.
inserts no `GenerationRecord`. -/
theorem c10_unregistered_user_errors :
    ∀ (s : LedgerState) (tid : String) (m : PresentationMetadata) (now : Int),
      (getUserByTelegramId s tid = none ∨
        (∃ u, getUserByTelegramId s tid = some u ∧
          jsFalsyString u.phoneNumber = true)) →
      (∃ e, consumeGeneration s tid m now = .error e) ∧
      (∃ e, getGenerationAvailability s tid now = .error e) ∧
      applyOp s (.reserve tid m) now = s := by
  intro s tid m now h
  rcases h with h | ⟨u, hu, hp⟩
  · refine ⟨⟨"Foydalanuvchi ro\x27yxatdan o\x27tmagan.", ?_⟩,
      ⟨"Foydalanuvchi ro\x27yxatdan o\x27tmagan.", ?_⟩, ?_⟩
    · unfold consumeGeneration
      simp [h]
    · unfold getGenerationAvailability
      simp [h]
    · unfold applyOp consumeGeneration
      simp [h]
  · refine ⟨⟨"Foydalanuvchi ro\x27yxatdan o\x27tishi yakunlanmagan.", ?_⟩,
      ⟨"Foydalanuvchi ro\x27yxatdan o\x27tishi yakunlanmagan.", ?_⟩, ?_⟩
    · unfold consumeGeneration
      simp [hu, hp]
    · unfold getGenerationAvailability
      simp [hu, hp]
    · unfold applyOp consumeGeneration
      simp [hu, hp]

def c10State : LedgerState := ⟨[⟨1, "300", none, "W", none⟩], [], 0⟩

theorem c10_unregistered_user_errors_witness :
    (∃ e, consumeGeneration c10State "300" emptyMetadata 0 = .error e) ∧
    (∃ e, getGenerationAvailability c10State "300" 0 = .error e) ∧
    applyOp c10State (.reserve "300" emptyMetadata) 0 = c10State :=
  c10_unregistered_user_errors c10State "300" emptyMetadata 0
    (Or.inr ⟨⟨1, "300", none, "W", none⟩, rfl, rfl⟩)

/-! ### C4 -/

theorem listMinInt_isSome (l : List Int) (h : l ≠ []) :
    (listMinInt l).isSome = true := by
  cases l with
  | nil => exact absurd rfl h
  | cons x xs =>
    unfold listMinInt
    cases listMinInt xs <;> rfl

/-- C4: `CheckAvailability` (getGenerationAvailability) counts the user's
records with `createdAt ≥ now − W` and `status ≠ failed`; whenever that
count reaches the limit it returns `allowed = false` with `nextAvailableAt`
equal to the oldest counted record's `createdAt` plus the window length
(such a record always exists in that branch), and `buildBlockedQuota`
falls back to `now + W` when no oldest record exists. -/
theorem c4_blocked_availability :
    (∀ (s : LedgerState) (tid : String) (now : Int) (u : TelegramUser)
        (q : GenerationQuota),
        getUserByTelegramId s tid = some u →
        getGenerationAvailability s tid now = .ok q →
        DAILY_GENERATION_LIMIT ≤ usedCountOf s u.id (getWindowStart now) →
        q.allowed = false ∧
        q.usedToday = usedCountOf s u.id (getWindowStart now) ∧
        (oldestCreatedAtOf s u.id (getWindowStart now)).isSome = true ∧
        q.nextAvailableAt =
          (oldestCreatedAtOf s u.id (getWindowStart now)).map
            (fun t => t + RATE_LIMIT_WINDOW_MS)) ∧
    (∀ (c : Nat) (now : Int),
        (buildBlockedQuota c none now).nextAvailableAt =
          some (now + RATE_LIMIT_WINDOW_MS)) := by
  constructor
  · intro s tid now u q hu hq hcnt
    unfold getGenerationAvailability at hq
    by_cases hp : jsFalsyString u.phoneNumber = true
    · simp [hu, hp] at hq
    · rw [Bool.not_eq_true] at hp
      simp only [hu, hp, Bool.false_eq_true, if_false, if_pos hcnt] at hq
      rw [Except.ok.injEq] at hq
      have hsome : (oldestCreatedAtOf s u.id (getWindowStart now)).isSome = true := by
        apply listMinInt_isSome
        have hlen : 0 < (usageRows s u.id (getWindowStart now)).length := by
          unfold usedCountOf DAILY_GENERATION_LIMIT at hcnt
          omega
        have hne : usageRows s u.id (getWindowStart now) ≠ [] :=
          List.length_pos.mp hlen
        intro hnil
        exact hne (List.map_eq_nil_iff.mp hnil)
      obtain ⟨t0, ht0⟩ := Option.isSome_iff_exists.mp hsome
      rw [← hq]
      refine ⟨rfl, rfl, hsome, ?_⟩
      rw [ht0]
      simp [buildBlockedQuota]
  · intro c now
    rfl

def c4User : TelegramUser := ⟨1, "400", none, "X", some "+998922222222"⟩

def c4State : LedgerState :=
  ⟨[c4User],
   [⟨0, 1, 0, GenStatus.pending, emptyMetadata⟩,
    ⟨1, 1, 10, GenStatus.completed, emptyMetadata⟩,
    ⟨2, 1, 5, GenStatus.pending, emptyMetadata⟩],
   3⟩

theorem c4_blocked_availability_witness :
    ((buildBlockedQuota 3 (some 0) 100).allowed = false ∧
     (buildBlockedQuota 3 (some 0) 100).usedToday =
       usedCountOf c4State 1 (getWindowStart 100) ∧
     (oldestCreatedAtOf c4State 1 (getWindowStart 100)).isSome = true ∧
     (buildBlockedQuota 3 (some 0) 100).nextAvailableAt =
       (oldestCreatedAtOf c4State 1 (getWindowStart 100)).map
         (fun t => t + RATE_LIMIT_WINDOW_MS)) ∧
    (buildBlockedQuota 3 none 100).nextAvailableAt =
      some (100 + RATE_LIMIT_WINDOW_MS) := by
  constructor
  · exact c4_blocked_availability.1 c4State "400" 100 c4User
      (buildBlockedQuota 3 (some 0) 100) rfl rfl (by decide)
  · exact c4_blocked_availability.2 3 100

/-! ### C5 -/

def c5Record : GenRecord := ⟨7, 1, 0, GenStatus.completed, emptyMetadata⟩

def c5State : LedgerState := ⟨[], [c5Record], 8⟩

/-- C5 counterexample: `Finalize` (updateGenerationStatus) is an
unconditional update, so it mutates a record whose status is already the
terminal value `completed` back to `failed`, contradicting "no ledger
operation ever changes a terminal record's status again". -/
theorem c5_counterexample :
    c5Record.status = GenStatus.completed ∧
    (updateGenerationStatus c5State 7 TerminalStatus.failed).records =
      [⟨7, 1, 0, GenStatus.failed, emptyMetadata⟩] := by
  decide

/-- C5 (amended): `MarkFailedIfPending` and `RecoverOrphanedOnStartup`
never change a record whose status is already terminal (`completed` or
`failed`); `Finalize` (updateGenerationStatus), being an unconditional
update, is excluded — it can overwrite a terminal status. -/
theorem c5_terminal_records_immutable_amended :
    (∀ (s : LedgerState) (pid i : Nat) (r : GenRecord),
        s.records[i]? = some r →
        (r.status = GenStatus.completed ∨ r.status = GenStatus.failed) →
        (markGenerationAsFailedIfPending s pid).records[i]? = some r) ∧
    (∀ (s : LedgerState) (i : Nat) (r : GenRecord),
        s.records[i]? = some r →
        (r.status = GenStatus.completed ∨ r.status = GenStatus.failed) →
        (recoverPendingGenerationsAfterProcessFailure s).2.records[i]? = some r) := by
  constructor
  · intro s pid i r hi hterm
    unfold markGenerationAsFailedIfPending
    have hx : (r.status == GenStatus.pending) = false := by
      rcases hterm with h | h <;> simp [h]
    simp [List.getElem?_map, hi, hx]
    intro _ hcontra
    exact absurd hcontra (by rcases hterm with h | h <;> simp [h])
  · intro s i r hi hterm
    unfold recoverPendingGenerationsAfterProcessFailure
    have hx : (r.status == GenStatus.pending) = false := by
      rcases hterm with h | h <;> simp [h]
    simp [List.getElem?_map, hi, hx]
    intro hcontra
    exact absurd hcontra (by rcases hterm with h | h <;> simp [h])

theorem c5_terminal_records_immutable_amended_witness :
    (markGenerationAsFailedIfPending c5State 7).records[0]? = some c5Record ∧
    (recoverPendingGenerationsAfterProcessFailure c5State).2.records[0]? =
      some c5Record :=
  ⟨c5_terminal_records_immutable_amended.1 c5State 7 0 c5Record rfl (Or.inl rfl),
   c5_terminal_records_immutable_amended.2 c5State 0 c5Record rfl (Or.inl rfl)⟩

/-! ### JS string primitives

Kernel-computable models of the JavaScript string methods the source uses
(`String.trim`, `String.replace` and `String.toLower` of Lean core do not
reduce inside the kernel, so the methods are modelled over `List Char`). -/

/-- Whitespace for `String.prototype.trim()`. -/
def isJsWhitespace (c : Char) : Bool :=
  c == ' ' || c == '\t' || c == '\n' || c == '\r' || c == '\x0b' || c == '\x0c'

/-- `String.prototype.trim()`. -/
def jsTrim (s : String) : String :=
  ⟨((s.data.dropWhile isJsWhitespace).reverse.dropWhile isJsWhitespace).reverse⟩

/-- `String.prototype.replaceAll(pat, rep)` for a one-character search
string (the only form `escapeHtml` needs). -/
def jsReplaceAllChar (s : String) (pat : Char) (rep : String) : String :=
  ⟨(s.data.map (fun c => if c == pat then rep.data else [c])).flatten⟩

/-- `String.prototype.toLowerCase()` (ASCII case folding; the
case-insensitive regexes of the source only involve ASCII letters). -/
def jsToLower (s : String) : String :=
  ⟨s.data.map Char.toLower⟩

def charsStartWith : List Char → List Char → Bool
  | [], _ => true
  | _ :: _, [] => false
  | p :: ps, h :: hs => p == h && charsStartWith ps hs

def charsContain (pat : List Char) : List Char → Bool
  | [] => charsStartWith pat []
  | c :: rest => charsStartWith pat (c :: rest) || charsContain pat rest

/-- Case-insensitive substring test — the semantics of the `/i` regexes of
the source, whose patterns are plain literal alternatives. -/
def containsSubstringCI (haystack needle : String) : Bool :=
  charsContain (jsToLower needle).data (jsToLower haystack).data

/-! ### Conversation flow state machine (presentation.service.ts) -/

/-- `PresentationLanguage = "uz" | "ru" | "en"`. -/
inductive PresentationLanguage
  | uz
  | ru
  | en
deriving DecidableEq, Repr

/-- `PresentationFlowStep` union type. -/
inductive PresentationFlowStep
  | awaiting_language
  | awaiting_topic
  | awaiting_brief_answer
  | awaiting_template
  | awaiting_page_count
  | awaiting_image_preference
  | generating
deriving DecidableEq, Repr

/-- `PresentationBriefAnswerKey` union type. -/
inductive PresentationBriefAnswerKey
  | targetAudience
  | presenterRole
  | presentationGoal
  | toneStyle
deriving DecidableEq, Repr

/-- `Partial<PresentationBriefAnswers>`: each of the 4 keys may be absent. -/
structure PartialBriefAnswers where
  targetAudience : Option String
  presenterRole : Option String
  presentationGoal : Option String
  toneStyle : Option String
deriving DecidableEq, Repr

def emptyBriefAnswers : PartialBriefAnswers := ⟨none, none, none, none⟩

/-- `briefAnswers[key]` lookup. -/
def PartialBriefAnswers.get (b : PartialBriefAnswers) :
    PresentationBriefAnswerKey → Option String
  | .targetAudience => b.targetAudience
  | .presenterRole => b.presenterRole
  | .presentationGoal => b.presentationGoal
  | .toneStyle => b.toneStyle

/-- `PresentationFlowState`.  `templateId` is the source's `1 | 2 | 3 | 4`
literal union and `pageCount` its `4 | 6 | 8`, both embedded as `Nat`. -/
structure PresentationFlowState where
  step : PresentationFlowStep
  language : Option PresentationLanguage
  topic : Option String
  templateId : Option Nat
  pageCount : Option Nat
  useImages : Option Bool
  askTopicMessageId : Option Nat
  briefAnswers : Option PartialBriefAnswers
deriving DecidableEq, Repr

/-- The `flows` map (`Map<number, PresentationFlowState>`), keyed by
telegram id. -/
def FlowMap : Type := Nat → Option PresentationFlowState

/-- `flows.set(telegramId, state)`. -/
def flowSet (flows : FlowMap) (telegramId : Nat)
    (state : PresentationFlowState) : FlowMap :=
  fun k => if k = telegramId then some state else flows k

/-- `PresentationService.hasAllBriefAnswers`: every required key maps to a
string whose trim is non-empty. -/
def hasAllBriefAnswers (briefAnswers : Option PartialBriefAnswers)
    (requiredKeys : List PresentationBriefAnswerKey) : Bool :=
  match briefAnswers with
  | none => false
  | some answers =>
    requiredKeys.all (fun key =>
      match answers.get key with
      | some value => decide (0 < (jsTrim value).length)
      | none => false)

/-- The 4 brief-answer keys, as listed in `setTemplate` (and collected by
the flow before `completeBriefAnswers`). -/
def allBriefAnswerKeys : List PresentationBriefAnswerKey :=
  [.targetAudience, .presenterRole, .presentationGoal, .toneStyle]

/-- `PresentationService.completeBriefAnswers`.  Returns the updated state
(`undefined` on guard failure) together with the resulting flow map. -/
def completeBriefAnswers (flows : FlowMap) (telegramId : Nat)
    (requiredKeys : List PresentationBriefAnswerKey) :
    Option PresentationFlowState × FlowMap :=
  match flows telegramId with
  | none => (none, flows)
  | some state =>
    if state.step == PresentationFlowStep.awaiting_brief_answer &&
        state.language.isSome && !(jsFalsyString state.topic) &&
        hasAllBriefAnswers state.briefAnswers requiredKeys then
      let updatedState : PresentationFlowState :=
        ⟨.awaiting_template, state.language, state.topic, none, none, none,
         none, state.briefAnswers⟩
      (some updatedState, flowSet flows telegramId updatedState)
    else (none, flows)

/-- `PresentationService.backToTopic`. -/
def backToTopic (flows : FlowMap) (telegramId : Nat) :
    Option PresentationFlowState × FlowMap :=
  match flows telegramId with
  | none => (none, flows)
  | some state =>
    if state.language.isSome &&
        state.step != PresentationFlowStep.awaiting_language then
      let updatedState : PresentationFlowState :=
        ⟨.awaiting_topic, state.language, none, none, none, none, none, none⟩
      (some updatedState, flowSet flows telegramId updatedState)
    else (none, flows)

/-- `PresentationService.setTemplate`.  Returns the boolean success signal
together with the resulting flow map. -/
def setTemplate (flows : FlowMap) (telegramId : Nat) (templateId : Nat) :
    Bool × FlowMap :=
  match flows telegramId with
  | none => (false, flows)
  | some state =>
    if state.step == PresentationFlowStep.awaiting_template &&
        !(jsFalsyString state.topic) && state.language.isSome &&
        hasAllBriefAnswers state.briefAnswers allBriefAnswerKeys then
      let updatedState : PresentationFlowState :=
        ⟨.awaiting_page_count, state.language, state.topic, some templateId,
         none, none, none, state.briefAnswers⟩
      (true, flowSet flows telegramId updatedState)
    else (false, flows)

/-! ### C7 -/

/-- C7: `setTemplate` fails (returns `false`) and leaves the flow map
untouched whenever the state is absent, the step is not
`awaiting_template`, or the language, the topic, or one of the 4
brief-answer keys is missing or empty; and `completeBriefAnswers` (with the
4 required keys) only ever produces a state in step `awaiting_template`,
and only from a state whose 4 brief answers are all present and non-blank. -/
theorem c7_set_template_guard :
    (∀ (flows : FlowMap) (telegramId templateId : Nat),
        (match flows telegramId with
         | none => True
         | some st =>
           st.step ≠ PresentationFlowStep.awaiting_template ∨
           jsFalsyString st.topic = true ∨
           st.language = none ∨
           hasAllBriefAnswers st.briefAnswers allBriefAnswerKeys = false) →
        setTemplate flows telegramId templateId = (false, flows)) ∧
    (∀ (flows : FlowMap) (telegramId : Nat) (st2 : PresentationFlowState),
        (completeBriefAnswers flows telegramId allBriefAnswerKeys).1 = some st2 →
        st2.step = PresentationFlowStep.awaiting_template ∧
        ∃ st, flows telegramId = some st ∧
          hasAllBriefAnswers st.briefAnswers allBriefAnswerKeys = true) := by
  constructor
  · intro flows telegramId templateId hguard
    unfold setTemplate
    split
    · rfl
    · rename_i st hf
      rw [hf] at hguard
      have hguard2 : st.step ≠ PresentationFlowStep.awaiting_template ∨
          jsFalsyString st.topic = true ∨ st.language = none ∨
          hasAllBriefAnswers st.briefAnswers allBriefAnswerKeys = false := hguard
      have hcond : (st.step == PresentationFlowStep.awaiting_template &&
          !(jsFalsyString st.topic) && st.language.isSome &&
          hasAllBriefAnswers st.briefAnswers allBriefAnswerKeys) = false := by
        rcases hguard2 with h | h | h | h
        · simp [h]
        · simp [h]
        · simp [h]
        · simp [h]
      simp [hcond]
  · intro flows telegramId st2 hok
    unfold completeBriefAnswers at hok
    split at hok
    · exact absurd (show (none : Option PresentationFlowState) = some st2 from hok)
        (by simp)
    · rename_i st hf
      split at hok
      · rename_i hcond
        have hall : hasAllBriefAnswers st.briefAnswers allBriefAnswerKeys = true := by
          simp only [Bool.and_eq_true] at hcond
          exact hcond.2
        have hok2 : some (⟨PresentationFlowStep.awaiting_template, st.language,
            st.topic, none, none, none, none, st.briefAnswers⟩ :
            PresentationFlowState) = some st2 := hok
        rw [Option.some.injEq] at hok2
        refine ⟨?_, st, hf, hall⟩
        rw [← hok2]
      · exact absurd (show (none : Option PresentationFlowState) = some st2 from hok)
          (by simp)

def c7EmptyFlows : FlowMap := fun _ => none

def c7ReadyState : PresentationFlowState :=
  ⟨.awaiting_brief_answer, some .en, some "Climate policy", none, none, none,
   none, some ⟨some "students", some "teacher", some "inform", some "formal"⟩⟩

def c7ReadyFlows : FlowMap := flowSet c7EmptyFlows 1 c7ReadyState

theorem c7_set_template_guard_witness :
    setTemplate c7EmptyFlows 1 2 = (false, c7EmptyFlows) ∧
    ((completeBriefAnswers c7ReadyFlows 1 allBriefAnswerKeys).1.map
        (·.step) = some PresentationFlowStep.awaiting_template) := by
  constructor
  · exact c7_set_template_guard.1 c7EmptyFlows 1 2 trivial
  · have h := c7_set_template_guard.2 c7ReadyFlows 1
      ⟨.awaiting_template, some .en, some "Climate policy", none, none, none,
       none, some ⟨some "students", some "teacher", some "inform", some "formal"⟩⟩
      rfl
    rw [show (completeBriefAnswers c7ReadyFlows 1 allBriefAnswerKeys).1 =
        some ⟨.awaiting_template, some .en, some "Climate policy", none, none,
          none, none,
          some ⟨some "students", some "teacher", some "inform", some "formal"⟩⟩
      from rfl]
    exact congrArg some h.1

/-! ### C9 -/

/-- C9: `backToTopic` succeeds from every flow state whose language is set
and whose step is not `awaiting_language` (whatever that step is, including
`awaiting_template`, `awaiting_page_count`, `awaiting_image_preference` and
`generating`), replacing the state with exactly
`{step := awaiting_topic, language}` — all other fields discarded; it
fails with `undefined` and an unchanged map exactly when no state exists,
the language is unset, or the step is `awaiting_language`. -/
theorem c9_back_to_topic :
    (∀ (flows : FlowMap) (telegramId : Nat) (st : PresentationFlowState)
        (l : PresentationLanguage),
        flows telegramId = some st →
        st.language = some l →
        st.step ≠ PresentationFlowStep.awaiting_language →
        backToTopic flows telegramId =
          (some ⟨.awaiting_topic, some l, none, none, none, none, none, none⟩,
           flowSet flows telegramId
             ⟨.awaiting_topic, some l, none, none, none, none, none, none⟩)) ∧
    (∀ (flows : FlowMap) (telegramId : Nat),
        (flows telegramId = none ∨
          (∃ st, flows telegramId = some st ∧
            (st.language = none ∨
             st.step = PresentationFlowStep.awaiting_language))) →
        backToTopic flows telegramId = (none, flows)) := by
  constructor
  · intro flows telegramId st l hf hl hstep
    unfold backToTopic
    split
    · rename_i hf2
      exact absurd (hf2.symm.trans hf) (by simp)
    · rename_i st2 hf2
      have hst : st2 = st := Option.some.inj (hf2.symm.trans hf)
      subst hst
      have hcond : (st2.language.isSome &&
          st2.step != PresentationFlowStep.awaiting_language) = true := by
        simp [hl, hstep]
      simp [hcond, hl, hstep]
  · intro flows telegramId h
    unfold backToTopic
    split
    · rfl
    · rename_i st hf2
      have hcond : (st.language.isSome &&
          st.step != PresentationFlowStep.awaiting_language) = false := by
        rcases h with h | ⟨st2, hf, hbad⟩
        · exact absurd (h.symm.trans hf2) (by simp)
        · have hst : st2 = st := Option.some.inj (hf.symm.trans hf2)
          subst hst
          rcases hbad with hb | hb
          · simp [hb]
          · simp [hb]
      simp [hcond]

def c9GeneratingState : PresentationFlowState :=
  ⟨.generating, some .ru, some "T", some 2, some 6, some true, some 5,
   some ⟨some "a", some "b", some "c", some "d"⟩⟩

def c9Flows : FlowMap := flowSet c7EmptyFlows 3 c9GeneratingState

theorem c9_back_to_topic_witness :
    backToTopic c9Flows 3 =
      (some ⟨.awaiting_topic, some .ru, none, none, none, none, none, none⟩,
       flowSet c9Flows 3
         ⟨.awaiting_topic, some .ru, none, none, none, none, none, none⟩) ∧
    backToTopic c9Flows 4 = (none, c9Flows) :=
  ⟨c9_back_to_topic.1 c9Flows 3 c9GeneratingState .ru rfl rfl (by decide),
   c9_back_to_topic.2 c9Flows 4 (Or.inl rfl)⟩

/-! ### Content generation cascade (presentation.service.ts)

The HTTP layer of `generateSlidesWithOpenAi` / `generateSlidesWithGemini`
is abstracted into a `ProviderAttempt` outcome per configured key: either a
network/HTTP/JSON-parse failure (the exception the `try` would observe
before slide validation) or the parsed `slides` field of the response body,
which then flows through `parseAiSlides` exactly as in the source. -/

/-- A parsed JSON value, restricted to the shapes `normalizeSlides`
inspects: strings, arrays, objects carrying the three relevant fields
(absent field = `undefined`), and everything else (numbers, booleans,
`null`, other objects). -/
inductive JVal
  | jstr (s : String)
  | jarr (items : List JVal)
  | jobj (title : Option JVal) (summary : Option JVal) (bullets : Option JVal)
  | jother

/-- `PresentationSlide` record. -/
structure PresentationSlide where
  pageNumber : Nat
  title : String
  summary : String
  bullets : List String
  content : String
  imageUrl : Option String
deriving DecidableEq, Repr

/-- `PresentationService.escapeHtml`: five `replaceAll` calls in source
order (`&` first), each with a one-character search string. -/
def escapeHtml (value : String) : String :=
  jsReplaceAllChar (jsReplaceAllChar (jsReplaceAllChar (jsReplaceAllChar
    (jsReplaceAllChar value '&' "&amp;") '<' "&lt;") '>' "&gt;")
    '"' "&quot;") '\x27' "&#39;"

/-- `PresentationService.buildSlideHtmlContent`. -/
def buildSlideHtmlContent (summary : String) (bullets : List String) : String :=
  let escapedSummary := escapeHtml summary
  let bulletItems :=
    String.join (bullets.map (fun bullet => "<li>" ++ escapeHtml bullet ++ "</li>"))
  "<p>" ++ escapedSummary ++ "</p><ul>" ++ bulletItems ++ "</ul>"

/-- Return shape of `getSlideLocale`. -/
structure SlideLocale where
  sectionLabel : String
  defaultSummary : String
  defaultBullets : List String
  sections : List String
  fallbackBullets : String → List String

/-- `PresentationService.getSlideLocale` (`uz` is the `default` case of the
source's switch). -/
def getSlideLocale : PresentationLanguage → SlideLocale
  | .ru =>
    { sectionLabel := "Раздел"
      defaultSummary := "Этот раздел раскрывает ключевые аспекты темы."
      defaultBullets :=
        ["Объясняются основные понятия",
         "Показываются практические примеры",
         "Сравниваются проблемы и решения",
         "Подводятся краткие итоги"]
      sections :=
        ["Введение и контекст", "Ключевые понятия", "Анализ и проблемы",
         "Стратегия", "Практические примеры", "Результаты", "Рекомендации",
         "Выводы и следующие шаги"]
      fallbackBullets := fun topic =>
        ["Ключевая идея по теме " ++ topic,
         "Анализ проблем и возможностей",
         "Краткий практический подход",
         "Предложение для достижения результата"] }
  | .en =>
    { sectionLabel := "Section"
      defaultSummary := "This section highlights the core aspects of the topic."
      defaultBullets :=
        ["Core concepts are explained", "Practical examples are shown",
         "Problems and solutions are compared", "Key takeaways are summarized"]
      sections :=
        ["Introduction and context", "Core concepts", "Analysis and challenges",
         "Strategy", "Practical examples", "Results", "Recommendations",
         "Conclusion and next steps"]
      fallbackBullets := fun topic =>
        ["Core idea related to " ++ topic,
         "Analysis of challenges and opportunities",
         "Short practical approach",
         "Proposal to drive measurable outcomes"] }
  | .uz =>
    { sectionLabel := "Bo\x27lim"
      defaultSummary := "Mazkur bo\x27lim mavzuning asosiy jihatlarini yoritadi."
      defaultBullets :=
        ["Asosiy tushunchalar izohlanadi", "Amaliy qo\x27llash misollari beriladi",
         "Muammolar va yechimlar solishtiriladi", "Natijalar qisqacha yakunlanadi"]
      sections :=
        ["Kirish va kontekst", "Asosiy tushunchalar", "Tahlil va muammolar",
         "Strategiya", "Amaliy misollar", "Natijalar", "Tavsiyalar",
         "Xulosa va keyingi qadamlar"]
      fallbackBullets := fun topic =>
        [topic ++ " bo\x27yicha asosiy g\x27oya",
         "Muammo va imkoniyatlar tahlili",
         "Qisqa amaliy yondashuv",
         "Natijaga olib boruvchi taklif"] }

/-- The `safeItem` destructuring of `normalizeSlides`: an object exposes
its `title`/`summary`/`bullets` fields, anything else behaves as `{}`. -/
def jvalObjFields : JVal → Option JVal × Option JVal × Option JVal
  | .jobj t s b => (t, s, b)
  | _ => (none, none, none)

/-- The `title` computation of `normalizeSlides`. -/
def normalizeSlideTitle (locale : SlideLocale) (index : Nat)
    (field : Option JVal) : String :=
  match field with
  | some (.jstr t) =>
    if 0 < (jsTrim t).length then jsTrim t
    else locale.sectionLabel ++ " " ++ toString (index + 1)
  | _ => locale.sectionLabel ++ " " ++ toString (index + 1)

/-- The `summary` computation of `normalizeSlides`. -/
def normalizeSlideSummary (locale : SlideLocale) (field : Option JVal) : String :=
  match field with
  | some (.jstr v) =>
    if 0 < (jsTrim v).length then jsTrim v else locale.defaultSummary
  | _ => locale.defaultSummary

/-- The `bullets` computation of `normalizeSlides`: keep string entries with
non-blank trim (the original, untrimmed string), capped at 5. -/
def normalizeSlideBullets (field : Option JVal) : List String :=
  match field with
  | some (.jarr bs) =>
    (bs.filterMap (fun b =>
      match b with
      | .jstr v => if 0 < (jsTrim v).length then some v else none
      | _ => none)).take 5
  | _ => []

/-- The per-item body of the `map` inside `normalizeSlides`. -/
def normalizeSlideItem (locale : SlideLocale) (index : Nat) (item : JVal) :
    PresentationSlide :=
  let fields := jvalObjFields item
  let title := normalizeSlideTitle locale index fields.1
  let summary := normalizeSlideSummary locale fields.2.1
  let bullets := normalizeSlideBullets fields.2.2
  let filledBullets :=
    if 0 < bullets.length then bullets else locale.defaultBullets
  ⟨index + 1, title, summary, filledBullets,
   buildSlideHtmlContent summary filledBullets, none⟩

/-- `PresentationService.normalizeSlides`: non-arrays give `[]`, arrays are
sliced to `pageCount` and normalized item by item. -/
def normalizeSlides (slides : JVal) (pageCount : Nat)
    (language : PresentationLanguage) : List PresentationSlide :=
  match slides with
  | .jarr items =>
    ((items.take pageCount).enum).map (fun p =>
      normalizeSlideItem (getSlideLocale language) p.1 p.2)
  | _ => []

/-- `PresentationService.parseAiSlides`: accept the normalized slides only
when their count equals exactly `pageCount`, otherwise throw. -/
def parseAiSlides (slidesField : JVal) (pageCount : Nat) (provider : String)
    (language : PresentationLanguage) : Except String (List PresentationSlide) :=
  let aiSlides := normalizeSlides slidesField pageCount language
  if aiSlides.length = pageCount then .ok aiSlides
  else .error (provider ++ " qaytargan slaydlar soni noto\x27g\x27ri.")

/-- `PresentationService.buildFallbackSummary` (`sect?.toLowerCase()`
modelled by `jsToLower`). -/
def buildFallbackSummary (topic : String) (sect : Option String)
    (language : PresentationLanguage) : String :=
  let sectionText := sect.map jsToLower
  match language with
  | .ru =>
    "По теме \"" ++ topic ++ "\" раскрывается раздел " ++
      (match sectionText with
       | some st => "«" ++ st ++ "»"
       | none => "с ключевыми аспектами") ++
      ". Эта страница структурированно показывает основные идеи презентации."
  | .en =>
    "For the topic \"" ++ topic ++ "\", this slide covers " ++
      (match sectionText with
       | some st => st
       | none => "the key section") ++
      ". It presents the most important points in a clear and structured way."
  | .uz =>
    "\"" ++ topic ++ "\" mavzusi bo\x27yicha " ++
      (match sectionText with
       | some st => st
       | none => "asosiy bo\x27lim") ++
      " yoritiladi. Ushbu sahifa taqdimotning muhim nuqtalarini tartibli ko\x27rsatadi."

/-- `PresentationService.buildFallbackSlides`: the deterministic
per-language fallback deck, `Array.from({length: pageCount})` over the
fixed ordered section list (padding with `sectionLabel n` past its end). -/
def buildFallbackSlides (topic : String) (pageCount : Nat)
    (language : PresentationLanguage) : List PresentationSlide :=
  let locale := getSlideLocale language
  (List.range pageCount).map (fun index =>
    let summary := buildFallbackSummary topic locale.sections[index]? language
    let bullets := locale.fallbackBullets topic
    ⟨index + 1,
     (locale.sections[index]?).getD
       (locale.sectionLabel ++ " " ++ toString (index + 1)),
     summary, bullets, buildSlideHtmlContent summary bullets, none⟩)

/-- Errors observable by a cascade attempt: a `GeminiApiError` (status +
details) or any other thrown error. -/
inductive AiError
  | gemini (status : Nat) (details : String)
  | generic (message : String)
deriving DecidableEq, Repr

/-- `PresentationService.shouldTryNextGeminiApiKey`: only
`GeminiApiError`s with status 400 + `API_KEY_INVALID`, or status 403 with
one of the four listed markers (case-insensitive), advance to the next key. -/
def shouldTryNextGeminiApiKey : AiError → Bool
  | .generic _ => false
  | .gemini status details =>
    (status == 400 && containsSubstringCI details "API_KEY_INVALID") ||
    (status == 403 &&
      (containsSubstringCI details "API_KEY_SERVICE_BLOCKED" ||
       containsSubstringCI details "PERMISSION_DENIED" ||
       containsSubstringCI details "SERVICE_DISABLED" ||
       containsSubstringCI details "forbidden"))

/-- Outcome of one provider HTTP attempt, before slide validation. -/
inductive ProviderAttempt
  | netError (e : AiError)
  | response (slidesField : JVal)

/-- One `generateSlidesWith…` attempt: a network failure propagates, a
response goes through `parseAiSlides` (whose throw is a plain `Error`,
i.e. never a retryable `GeminiApiError`). -/
def runSlidesAttempt (attempt : ProviderAttempt) (pageCount : Nat)
    (provider : String) (language : PresentationLanguage) :
    Except AiError (List PresentationSlide) :=
  match attempt with
  | .netError e => .error e
  | .response v =>
    match parseAiSlides v pageCount provider language with
    | .ok slides => .ok slides
    | .error msg => .error (.generic msg)

/-- The `for` loop over `geminiApiKeys` in `generateSlides`: stop at the
first success; on error, break (→ fallback) unless a further key exists
and `shouldTryNextGeminiApiKey` approves. -/
def generateSlidesGeminiLoop (pageCount : Nat) (language : PresentationLanguage) :
    List ProviderAttempt → Option (List PresentationSlide)
  | [] => none
  | attempt :: rest =>
    match runSlidesAttempt attempt pageCount "Gemini" language with
    | .ok slides => some slides
    | .error e =>
      if rest.isEmpty || !shouldTryNextGeminiApiKey e then none
      else generateSlidesGeminiLoop pageCount language rest

/-- `PresentationService.generateSlides`: the two-provider cascade.
`openAiApiKey` is the configured key (`none` when unset) and
`geminiOutcomes` has one attempt outcome per configured Gemini key (so
`geminiOutcomes.isEmpty` is the `geminiApiKeys.length === 0` test). -/
def generateSlides (openAiApiKey : Option String)
    (openAiOutcome : ProviderAttempt) (geminiOutcomes : List ProviderAttempt)
    (topic : String) (pageCount : Nat) (language : PresentationLanguage) :
    List PresentationSlide :=
  if openAiApiKey.isNone && geminiOutcomes.isEmpty then
    buildFallbackSlides topic pageCount language
  else
    match openAiApiKey with
    | some _ =>
      (match runSlidesAttempt openAiOutcome pageCount "OpenAI" language with
       | .ok slides => slides
       | .error _ =>
         if geminiOutcomes.isEmpty then
           buildFallbackSlides topic pageCount language
         else
           match generateSlidesGeminiLoop pageCount language geminiOutcomes with
           | some slides => slides
           | none => buildFallbackSlides topic pageCount language)
    | none =>
      match generateSlidesGeminiLoop pageCount language geminiOutcomes with
      | some slides => slides
      | none => buildFallbackSlides topic pageCount language

/-- Well-formedness of a slide per the spec: non-empty title and summary,
between 1 and 5 bullets. -/
def wellFormedSlide (slide : PresentationSlide) : Bool :=
  slide.title != "" && slide.summary != "" &&
    decide (1 ≤ slide.bullets.length) && decide (slide.bullets.length ≤ 5)

def exceptIsOk : Except AiError (List PresentationSlide) → Bool
  | .ok _ => true
  | .error _ => false

/-! ### C6 helper lemmas -/

theorem str_ne_empty_of_pos (s : String) (h : 0 < s.length) : s ≠ "" := by
  intro hc
  rw [hc] at h
  simp [String.length] at h

theorem str_pos_of_ne_empty (s : String) (h : s ≠ "") : 0 < s.length := by
  cases s with
  | mk data =>
    cases data with
    | nil => exact absurd rfl h
    | cons c cs => simp [String.length]

theorem str_append_ne_left (a b : String) (h : a ≠ "") : a ++ b ≠ "" := by
  apply str_ne_empty_of_pos
  rw [String.length_append]
  have := str_pos_of_ne_empty a h
  omega

theorem str_append_ne_right (a b : String) (h : b ≠ "") : a ++ b ≠ "" := by
  apply str_ne_empty_of_pos
  rw [String.length_append]
  have := str_pos_of_ne_empty b h
  omega

theorem placeholder_title_ne (label : String) (n : Nat) :
    label ++ " " ++ toString n ≠ "" :=
  str_append_ne_left _ _ (str_append_ne_right _ _ (by decide))

theorem normalizeSlideTitle_ne (locale : SlideLocale) (index : Nat)
    (field : Option JVal) : normalizeSlideTitle locale index field ≠ "" := by
  cases field with
  | none => exact placeholder_title_ne _ _
  | some v =>
    cases v with
    | jstr t =>
      show (if 0 < (jsTrim t).length then jsTrim t
            else locale.sectionLabel ++ " " ++ toString (index + 1)) ≠ ""
      by_cases h : 0 < (jsTrim t).length
      · rw [if_pos h]
        exact str_ne_empty_of_pos _ h
      · rw [if_neg h]
        exact placeholder_title_ne _ _
    | jarr items => exact placeholder_title_ne _ _
    | jobj t s b => exact placeholder_title_ne _ _
    | jother => exact placeholder_title_ne _ _

theorem normalizeSlideSummary_ne (locale : SlideLocale) (field : Option JVal)
    (hsum : locale.defaultSummary ≠ "") :
    normalizeSlideSummary locale field ≠ "" := by
  cases field with
  | none => exact hsum
  | some v =>
    cases v with
    | jstr t =>
      show (if 0 < (jsTrim t).length then jsTrim t
            else locale.defaultSummary) ≠ ""
      by_cases h : 0 < (jsTrim t).length
      · rw [if_pos h]
        exact str_ne_empty_of_pos _ h
      · rw [if_neg h]
        exact hsum
    | jarr items => exact hsum
    | jobj t s b => exact hsum
    | jother => exact hsum

theorem normalizeSlideBullets_le5 (field : Option JVal) :
    (normalizeSlideBullets field).length ≤ 5 := by
  cases field with
  | none => simp [normalizeSlideBullets]
  | some v =>
    cases v with
    | jarr bs =>
      show ((bs.filterMap _).take 5).length ≤ 5
      rw [List.length_take]
      omega
    | jstr t => simp [normalizeSlideBullets]
    | jobj t s b => simp [normalizeSlideBullets]
    | jother => simp [normalizeSlideBullets]

theorem normalizeSlideItem_wf (locale : SlideLocale) (index : Nat) (item : JVal)
    (hsum : locale.defaultSummary ≠ "")
    (hdb1 : 1 ≤ locale.defaultBullets.length)
    (hdb5 : locale.defaultBullets.length ≤ 5) :
    wellFormedSlide (normalizeSlideItem locale index item) = true := by
  unfold normalizeSlideItem wellFormedSlide
  simp only [Bool.and_eq_true, bne_iff_ne, ne_eq, decide_eq_true_eq]
  refine ⟨⟨⟨?_, ?_⟩, ?_⟩, ?_⟩
  · exact normalizeSlideTitle_ne _ _ _
  · exact normalizeSlideSummary_ne _ _ hsum
  · by_cases h : 0 < (normalizeSlideBullets (jvalObjFields item).2.2).length
    · rw [if_pos h]
      omega
    · rw [if_neg h]
      exact hdb1
  · by_cases h : 0 < (normalizeSlideBullets (jvalObjFields item).2.2).length
    · rw [if_pos h]
      exact normalizeSlideBullets_le5 _
    · rw [if_neg h]
      exact hdb5

theorem locale_defaultSummary_ne (lang : PresentationLanguage) :
    (getSlideLocale lang).defaultSummary ≠ "" := by
  cases lang <;> decide

theorem locale_defaultBullets_len (lang : PresentationLanguage) :
    (getSlideLocale lang).defaultBullets.length = 4 := by
  cases lang <;> rfl

theorem locale_sections_ne (lang : PresentationLanguage) :
    ∀ s ∈ (getSlideLocale lang).sections, s ≠ "" := by
  cases lang <;> decide

theorem locale_fallbackBullets_len (lang : PresentationLanguage) (topic : String) :
    ((getSlideLocale lang).fallbackBullets topic).length = 4 := by
  cases lang <;> rfl

theorem buildFallbackSummary_ne (topic : String) (sect : Option String)
    (lang : PresentationLanguage) : buildFallbackSummary topic sect lang ≠ "" := by
  cases lang with
  | uz =>
    exact str_append_ne_left _ _ (str_append_ne_left _ _
      (str_append_ne_left _ _ (str_append_ne_left _ _ (by decide))))
  | ru =>
    exact str_append_ne_left _ _ (str_append_ne_left _ _
      (str_append_ne_left _ _ (str_append_ne_left _ _ (by decide))))
  | en =>
    exact str_append_ne_left _ _ (str_append_ne_left _ _
      (str_append_ne_left _ _ (str_append_ne_left _ _ (by decide))))

theorem buildFallbackSlides_len (topic : String) (pc : Nat)
    (lang : PresentationLanguage) :
    (buildFallbackSlides topic pc lang).length = pc := by
  unfold buildFallbackSlides
  rw [List.length_map, List.length_range]

theorem buildFallbackSlides_wf (topic : String) (pc : Nat)
    (lang : PresentationLanguage) :
    ∀ s ∈ buildFallbackSlides topic pc lang, wellFormedSlide s = true := by
  intro s hs
  unfold buildFallbackSlides at hs
  rw [List.mem_map] at hs
  obtain ⟨index, hidx, heq⟩ := hs
  rw [← heq]
  unfold wellFormedSlide
  simp only [Bool.and_eq_true, bne_iff_ne, ne_eq, decide_eq_true_eq]
  refine ⟨⟨⟨?_, ?_⟩, ?_⟩, ?_⟩
  · cases hsect : (getSlideLocale lang).sections[index]? with
    | none =>
      simp only [hsect, Option.getD_none]
      exact placeholder_title_ne _ _
    | some str =>
      simp only [hsect, Option.getD_some]
      exact locale_sections_ne lang str (by exact List.getElem?_mem hsect)
  · exact buildFallbackSummary_ne _ _ _
  · rw [locale_fallbackBullets_len]
    omega
  · rw [locale_fallbackBullets_len]
    omega

theorem normalizeSlides_wf (v : JVal) (pc : Nat) (lang : PresentationLanguage) :
    ∀ s ∈ normalizeSlides v pc lang, wellFormedSlide s = true := by
  intro s hs
  cases v with
  | jarr items =>
    unfold normalizeSlides at hs
    rw [List.mem_map] at hs
    obtain ⟨p, hp, heq⟩ := hs
    rw [← heq]
    refine normalizeSlideItem_wf _ _ _ (locale_defaultSummary_ne lang) ?_ ?_
    · rw [locale_defaultBullets_len]
      omega
    · rw [locale_defaultBullets_len]
      omega
  | jstr t => simp [normalizeSlides] at hs
  | jobj t su b => simp [normalizeSlides] at hs
  | jother => simp [normalizeSlides] at hs

theorem runSlidesAttempt_ok (a : ProviderAttempt) (pc : Nat) (prov : String)
    (lang : PresentationLanguage) (slides : List PresentationSlide)
    (h : runSlidesAttempt a pc prov lang = .ok slides) :
    slides.length = pc ∧ ∀ s ∈ slides, wellFormedSlide s = true := by
  cases a with
  | netError e => exact absurd h (by simp [runSlidesAttempt])
  | response v =>
    unfold runSlidesAttempt parseAiSlides at h
    by_cases hlen : (normalizeSlides v pc lang).length = pc
    · simp only [if_pos hlen] at h
      have h2 : (Except.ok (normalizeSlides v pc lang) :
          Except AiError (List PresentationSlide)) = .ok slides := h
      rw [Except.ok.injEq] at h2
      rw [← h2]
      exact ⟨hlen, normalizeSlides_wf v pc lang⟩
    · simp only [if_neg hlen] at h
      have h2 : (Except.error (AiError.generic
          (prov ++ " qaytargan slaydlar soni noto\x27g\x27ri.")) :
          Except AiError (List PresentationSlide)) = .ok slides := h
      exact absurd h2 (by simp)

theorem geminiLoop_ok (pc : Nat) (lang : PresentationLanguage) :
    ∀ (outcomes : List ProviderAttempt) (slides : List PresentationSlide),
      generateSlidesGeminiLoop pc lang outcomes = some slides →
      ∃ a ∈ outcomes, runSlidesAttempt a pc "Gemini" lang = .ok slides := by
  intro outcomes
  induction outcomes with
  | nil =>
    intro slides h
    exact absurd h (by simp [generateSlidesGeminiLoop])
  | cons a rest ih =>
    intro slides h
    unfold generateSlidesGeminiLoop at h
    cases hr : runSlidesAttempt a pc "Gemini" lang with
    | ok s =>
      rw [hr] at h
      have h2 : some s = some slides := h
      rw [Option.some.injEq] at h2
      rw [h2] at hr
      exact ⟨a, List.mem_cons_self _ _, hr⟩
    | error e =>
      rw [hr] at h
      have h2 : (if rest.isEmpty || !shouldTryNextGeminiApiKey e then none
          else generateSlidesGeminiLoop pc lang rest) = some slides := h
      by_cases hc : (rest.isEmpty || !shouldTryNextGeminiApiKey e) = true
      · rw [if_pos hc] at h2
        exact absurd h2 (by simp)
      · rw [if_neg hc] at h2
        obtain ⟨a2, ha2, hok⟩ := ih slides h2
        exact ⟨a2, List.mem_cons_of_mem _ ha2, hok⟩

theorem generateSlides_cases (openAiApiKey : Option String)
    (openAiOutcome : ProviderAttempt) (geminiOutcomes : List ProviderAttempt)
    (topic : String) (pc : Nat) (lang : PresentationLanguage)
    (result : List PresentationSlide)
    (h : generateSlides openAiApiKey openAiOutcome geminiOutcomes topic pc
      lang = result) :
    result = buildFallbackSlides topic pc lang ∨
    runSlidesAttempt openAiOutcome pc "OpenAI" lang = .ok result ∨
    ∃ a ∈ geminiOutcomes, runSlidesAttempt a pc "Gemini" lang = .ok result := by
  unfold generateSlides at h
  split at h
  · exact Or.inl h.symm
  · split at h
    · split at h
      · rename_i slides hr
        rw [h] at hr
        exact Or.inr (Or.inl hr)
      · split at h
        · exact Or.inl h.symm
        · split at h
          · rename_i slides hl
            obtain ⟨a, ha, hok⟩ := geminiLoop_ok pc lang geminiOutcomes slides hl
            rw [h] at hok
            exact Or.inr (Or.inr ⟨a, ha, hok⟩)
          · exact Or.inl h.symm
    · split at h
      · rename_i slides hl
        obtain ⟨a, ha, hok⟩ := geminiLoop_ok pc lang geminiOutcomes slides hl
        rw [h] at hok
        exact Or.inr (Or.inr ⟨a, ha, hok⟩)
      · exact Or.inl h.symm

/-! ### C6 -/

/-- C6: (1) a provider response whose normalized slide count differs from
`pageCount` makes `parseAiSlides` throw — the attempt fails rather than
partially succeeds; (2) for every configuration, every set of provider
outcomes and every `pageCount ∈ {4, 6, 8}`, `generateSlides` returns
exactly `pageCount` well-formed slides; (3) when the OpenAI attempt and
every Gemini attempt fail, the result is exactly the deterministic
per-language fallback deck `buildFallbackSlides`. -/
theorem c6_slide_cascade_totality :
    (∀ (v : JVal) (pageCount : Nat) (provider : String)
        (language : PresentationLanguage),
        (normalizeSlides v pageCount language).length ≠ pageCount →
        parseAiSlides v pageCount provider language =
          .error (provider ++ " qaytargan slaydlar soni noto\x27g\x27ri.")) ∧
    (∀ (openAiApiKey : Option String) (openAiOutcome : ProviderAttempt)
        (geminiOutcomes : List ProviderAttempt) (topic : String)
        (pageCount : Nat) (language : PresentationLanguage),
        (pageCount = 4 ∨ pageCount = 6 ∨ pageCount = 8) →
        (generateSlides openAiApiKey openAiOutcome geminiOutcomes topic
            pageCount language).length = pageCount ∧
        (∀ slide ∈ generateSlides openAiApiKey openAiOutcome geminiOutcomes
            topic pageCount language, wellFormedSlide slide = true)) ∧
    (∀ (openAiApiKey : Option String) (openAiOutcome : ProviderAttempt)
        (geminiOutcomes : List ProviderAttempt) (topic : String)
        (pageCount : Nat) (language : PresentationLanguage),
        exceptIsOk (runSlidesAttempt openAiOutcome pageCount "OpenAI" language)
          = false →
        (∀ a ∈ geminiOutcomes,
          exceptIsOk (runSlidesAttempt a pageCount "Gemini" language) = false) →
        generateSlides openAiApiKey openAiOutcome geminiOutcomes topic
          pageCount language = buildFallbackSlides topic pageCount language) := by
  refine ⟨?_, ?_, ?_⟩
  · intro v pc prov lang h
    simp [parseAiSlides, h]
  · intro key oOut gOut topic pc lang hpc
    rcases generateSlides_cases key oOut gOut topic pc lang _ rfl with
      h | h | ⟨a, ha, h⟩
    · constructor
      · rw [h, buildFallbackSlides_len]
      · intro slide hs
        rw [h] at hs
        exact buildFallbackSlides_wf topic pc lang slide hs
    · exact runSlidesAttempt_ok _ _ _ _ _ h
    · exact runSlidesAttempt_ok _ _ _ _ _ h
  · intro key oOut gOut topic pc lang hopen hgem
    rcases generateSlides_cases key oOut gOut topic pc lang _ rfl with
      h | h | ⟨a, ha, h⟩
    · exact h
    · rw [h] at hopen
      simp [exceptIsOk] at hopen
    · have hfail := hgem a ha
      rw [h] at hfail
      simp [exceptIsOk] at hfail

theorem c6_slide_cascade_totality_witness :
    parseAiSlides (.jarr []) 6 "OpenAI" PresentationLanguage.en =
      .error ("OpenAI" ++ " qaytargan slaydlar soni noto\x27g\x27ri.") ∧
    ((generateSlides none (.netError (.generic "down")) [] "Climate policy"
        6 PresentationLanguage.en).length = 6 ∧
      (∀ slide ∈ generateSlides none (.netError (.generic "down")) []
          "Climate policy" 6 PresentationLanguage.en,
        wellFormedSlide slide = true)) ∧
    generateSlides (some "sk") (.netError (.generic "down"))
        [.netError (.gemini 400 "API_KEY_INVALID"), .netError (.gemini 500 "oops")]
        "Climate policy" 6 PresentationLanguage.en =
      buildFallbackSlides "Climate policy" 6 PresentationLanguage.en := by
  refine ⟨?_, ?_, ?_⟩
  · exact c6_slide_cascade_totality.1 (.jarr []) 6 "OpenAI"
      PresentationLanguage.en (by decide)
  · exact c6_slide_cascade_totality.2.1 none (.netError (.generic "down")) []
      "Climate policy" 6 PresentationLanguage.en (Or.inr (Or.inl rfl))
  · exact c6_slide_cascade_totality.2.2 (some "sk") (.netError (.generic "down"))
      [.netError (.gemini 400 "API_KEY_INVALID"), .netError (.gemini 500 "oops")]
      "Climate policy" 6 PresentationLanguage.en rfl (by decide)

/-! ### Image enrichment cascade (presentation.service.ts) -/

/-- Errors observable while fetching an image for one slide: a
`SerperApiError` (status + details) or any other thrown error. -/
inductive SerperError
  | api (status : Nat) (details : String)
  | generic (message : String)
deriving DecidableEq, Repr

/-- `PresentationService.isSerperPermissionError`: a `SerperApiError` whose
status is 401/403/429 or whose details match the permission/quota regex
(case-insensitive literal alternatives). -/
def isSerperPermissionError : SerperError → Bool
  | .generic _ => false
  | .api status details =>
    status == 401 || status == 403 || status == 429 ||
    containsSubstringCI details "unauthorized" ||
    containsSubstringCI details "forbidden" ||
    containsSubstringCI details "invalid api key" ||
    containsSubstringCI details "quota" ||
    containsSubstringCI details "rate limit"

/-- The `for (const slide of slides)` loop of `attachImagesToSlides`,
carrying `shouldStopImageSearch`.  `fetch` abstracts
`fetchSerperImageForSlide` (network I/O per slide): it returns the embedded
image URL, `none` when no candidate query produced an image, or throws.
Besides the updated slides the model returns the page numbers of the slides
for which `fetch` was invoked, i.e. for which an image search was
attempted. -/
def attachImagesGo
    (fetch : PresentationSlide → Except SerperError (Option String)) :
    Bool → List PresentationSlide → List PresentationSlide × List Nat
  | _, [] => ([], [])
  | true, slide :: rest =>
    let r := attachImagesGo fetch true rest
    (slide :: r.1, r.2)
  | false, slide :: rest =>
    match fetch slide with
    | .ok imageUrl =>
      let r := attachImagesGo fetch false rest
      ((match imageUrl with
        | some url => { slide with imageUrl := some url }
        | none => slide) :: r.1,
       slide.pageNumber :: r.2)
    | .error e =>
      let r := attachImagesGo fetch (isSerperPermissionError e) rest
      (slide :: r.1, slide.pageNumber :: r.2)

/-- `PresentationService.attachImagesToSlides`: without a configured Serper
key the slides are returned untouched (and nothing is attempted), otherwise
the loop starts with `shouldStopImageSearch = false`. -/
def attachImagesToSlides (serperApiKeys : List String)
    (fetch : PresentationSlide → Except SerperError (Option String))
    (slides : List PresentationSlide) : List PresentationSlide × List Nat :=
  if serperApiKeys.isEmpty then (slides, [])
  else attachImagesGo fetch false slides

/-- What one processed slide becomes: the image URL is attached only when the
fetch succeeded with a URL; otherwise the slide is kept as-is. -/
def applySlideFetch
    (fetch : PresentationSlide → Except SerperError (Option String))
    (slide : PresentationSlide) : PresentationSlide :=
  match fetch slide with
  | .ok (some url) => { slide with imageUrl := some url }
  | .ok none => slide
  | .error _ => slide

theorem attachImagesGo_stopped
    (fetch : PresentationSlide → Except SerperError (Option String))
    (l : List PresentationSlide) : attachImagesGo fetch true l = (l, []) := by
  induction l with
  | nil => rfl
  | cons s rest ih => simp [attachImagesGo, ih]

theorem attachImagesGo_split
    (fetch : PresentationSlide → Except SerperError (Option String))
    (pre : List PresentationSlide) (sj : PresentationSlide)
    (post : List PresentationSlide) (e : SerperError)
    (hpre : ∀ s ∈ pre, ∀ err, fetch s = .error err →
      isSerperPermissionError err = false)
    (hj : fetch sj = .error e) (hperm : isSerperPermissionError e = true) :
    attachImagesGo fetch false (pre ++ sj :: post) =
      (pre.map (applySlideFetch fetch) ++ sj :: post,
       pre.map (·.pageNumber) ++ [sj.pageNumber]) := by
  induction pre with
  | nil =>
    simp [attachImagesGo, hj, hperm, attachImagesGo_stopped]
  | cons s pres ih =>
    have hs := hpre s (List.mem_cons_self _ _)
    have ih2 := ih (fun a ha err herr => hpre a (List.mem_cons_of_mem _ ha) err herr)
    cases hr : fetch s with
    | ok imageUrl =>
      cases imageUrl with
      | some url => simp [attachImagesGo, hr, ih2, applySlideFetch]
      | none => simp [attachImagesGo, hr, ih2, applySlideFetch]
    | error err =>
      have hnp := hs err hr
      simp [attachImagesGo, hr, hnp, ih2, applySlideFetch]

/-! ### C8 -/

/-- C8: with at least one configured Serper key, if every slide before `sj`
fetches without a permission error, `sj`'s fetch throws a permission/quota/
authorization error (`isSerperPermissionError`), then `attachImagesToSlides`
attempts an image search exactly for the slides up to and including `sj`
(their page numbers are the attempt list), the slides after `sj` are
returned untouched with no attempt made for them, and every slide before
`sj` keeps the result its own fetch already produced. -/
theorem c8_image_cascade_short_circuit :
    ∀ (serperApiKeys : List String)
      (fetch : PresentationSlide → Except SerperError (Option String))
      (pre : List PresentationSlide) (sj : PresentationSlide)
      (post : List PresentationSlide) (e : SerperError),
      serperApiKeys.isEmpty = false →
      (∀ s ∈ pre, ∀ err, fetch s = .error err →
        isSerperPermissionError err = false) →
      fetch sj = .error e →
      isSerperPermissionError e = true →
      attachImagesToSlides serperApiKeys fetch (pre ++ sj :: post) =
        (pre.map (applySlideFetch fetch) ++ sj :: post,
         pre.map (·.pageNumber) ++ [sj.pageNumber]) := by
  intro keys fetch pre sj post e hkeys hpre hj hperm
  unfold attachImagesToSlides
  rw [if_neg (by rw [hkeys]; simp)]
  exact attachImagesGo_split fetch pre sj post e hpre hj hperm

def c8Slide (n : Nat) : PresentationSlide := ⟨n, "T", "S", ["b"], "c", none⟩

def c8Fetch : PresentationSlide → Except SerperError (Option String) :=
  fun slide =>
    if slide.pageNumber == 2 then .error (.api 403 "Forbidden")
    else .ok (some "data:image/png;base64,AA")

theorem c8_image_cascade_short_circuit_witness :
    attachImagesToSlides ["key"] c8Fetch
        ([c8Slide 1] ++ c8Slide 2 ::
          [c8Slide 3, c8Slide 4, c8Slide 5, c8Slide 6]) =
      ([c8Slide 1].map (applySlideFetch c8Fetch) ++ c8Slide 2 ::
        [c8Slide 3, c8Slide 4, c8Slide 5, c8Slide 6],
       [c8Slide 1].map (·.pageNumber) ++ [(c8Slide 2).pageNumber]) := by
  refine c8_image_cascade_short_circuit ["key"] c8Fetch [c8Slide 1] (c8Slide 2)
    [c8Slide 3, c8Slide 4, c8Slide 5, c8Slide 6] (.api 403 "Forbidden")
    rfl ?_ rfl (by decide)
  intro s hs err herr
  simp only [List.mem_singleton] at hs
  subst hs
  simp [c8Fetch, c8Slide] at herr

end PresentationBot
